import Mathlib

set_option maxRecDepth 16000

/-!
Shallow embedding of the enhancement orchestration and quality validation
pipeline of the repository (services/qualityValidator.ts, the single-model
enhancer, the OpenRouter fallback orchestrator, lib/validations.ts and the
prompt enhancer).

Strings are modelled as `List Char`.  The JavaScript operations
`toLowerCase`, the character classes `\s`, `\w` and `[A-Z]`, and `trim` are
modelled over the ASCII range, which covers every pattern constant appearing
in the source.  JavaScript floating-point division of string lengths is
modelled by exact rational comparison via cross multiplication, with the
division-by-zero cases (`Infinity` and `NaN`) treated explicitly with IEEE
754 semantics, mirroring what the JavaScript code computes.
-/

abbrev Str := List Char

/-- Convert a Lean string literal into the `List Char` representation. -/
def cl (s : String) : Str := s.toList

/-- The apostrophe character U+0027, used inside several source pattern
constants. -/
def apos : Char := Char.ofNat 39

/-- ASCII model of the JavaScript whitespace class `\s` (space, tab, line
feed, carriage return, vertical tab, form feed). -/
def isWsChar (c : Char) : Bool :=
  c == ' ' || c == Char.ofNat 9 || c == Char.ofNat 10 || c == Char.ofNat 13 ||
  c == Char.ofNat 11 || c == Char.ofNat 12

/-- ASCII model of the JavaScript word-character class `\w`. -/
def isWordChar (c : Char) : Bool :=
  ('a' ≤ c && c ≤ 'z') || ('A' ≤ c && c ≤ 'Z') || ('0' ≤ c && c ≤ '9') || c == '_'

/-- ASCII model of `String.prototype.toLowerCase` on a single character. -/
def lowerChar (c : Char) : Char :=
  if 'A' ≤ c && c ≤ 'Z' then Char.ofNat (c.toNat + 32) else c

/-- ASCII model of `String.prototype.toLowerCase`. -/
def lowerStr (s : Str) : Str := s.map lowerChar

/-- Model of `String.prototype.trim` (ASCII whitespace). -/
def trimL (s : Str) : Str :=
  ((s.dropWhile isWsChar).reverse.dropWhile isWsChar).reverse

/-- `isPrefixL pat s` holds when `pat` is a prefix of `s`. -/
def isPrefixL : Str → Str → Bool
  | [], _ => true
  | _ :: _, [] => false
  | p :: ps, c :: cs => p == c && isPrefixL ps cs

/-- Case-insensitive prefix test: the pattern is given in lower case and the
scanned text is lowered character by character. -/
def isPrefixCI : Str → Str → Bool
  | [], _ => true
  | _ :: _, [] => false
  | p :: ps, c :: cs => p == lowerChar c && isPrefixCI ps cs

/-- `hasSubstr pat s` holds when `pat` occurs as a contiguous substring of
`s`; this models `regex.test` for a regular expression that is a literal
string. -/
def hasSubstr (pat : Str) : Str → Bool
  | [] => isPrefixL pat []
  | c :: rest => isPrefixL pat (c :: rest) || hasSubstr pat rest

/-- Case-insensitive substring test, modelling `/literal/i.test(s)`. -/
def hasSubstrCI (pat s : Str) : Bool := hasSubstr pat (lowerStr s)

/-- Split a list at the first occurrence of `pat`, returning the part before
the match and the part after it.  Models locating the first match of a
literal-string regular expression. -/
def findSplit (pat : Str) : Str → Option (Str × Str)
  | [] => if isPrefixL pat [] then some ([], []) else none
  | c :: rest =>
    if isPrefixL pat (c :: rest) then some ([], (c :: rest).drop pat.length)
    else (findSplit pat rest).map (fun p => (c :: p.1, p.2))

/-- Model of `String.prototype.replace` with a literal string pattern:
replaces the first occurrence only. -/
def replaceFirstL (pat repl s : Str) : Str :=
  match findSplit pat s with
  | some (pre, post) => pre ++ repl ++ post
  | none => s

mutual

/-- Model of `s.split(/\s+/)` while inside a token: `acc` holds the reversed
characters of the token being read. -/
def jsSplitTok (acc : Str) : Str → List Str
  | [] => [acc.reverse]
  | c :: rest =>
    if isWsChar c then acc.reverse :: jsSplitSep rest else jsSplitTok (c :: acc) rest

/-- Model of `s.split(/\s+/)` just after consuming a run of whitespace. -/
def jsSplitSep : Str → List Str
  | [] => [[]]
  | c :: rest => if isWsChar c then jsSplitSep rest else jsSplitTok [c] rest

end

/-- Model of JavaScript `s.split(/\s+/)`: separators are maximal whitespace
runs; a leading or trailing run contributes an empty token, and the empty
string yields a single empty token. -/
def jsSplitWs (s : Str) : List Str := jsSplitTok [] s

/-- `ratioLtFrac n d p q` models the JavaScript comparison `n / d < p / q`
on non-negative integers, with `d = 0` handled as in IEEE 754: `n / 0` is
`Infinity` (or `NaN` for `0 / 0`) and in both cases the `<` comparison is
false. -/
def ratioLtFrac (n d p q : Nat) : Bool :=
  if d = 0 then false else decide (n * q < p * d)

/-- `ratioGtFrac n d p q` models the JavaScript comparison `n / d > p / q`
on non-negative integers, with `d = 0` handled as in IEEE 754: `n / 0` is
`Infinity` for `n ≠ 0` (so `>` is true) and `NaN` for `n = 0` (so `>` is
false). -/
def ratioGtFrac (n d p q : Nat) : Bool :=
  if d = 0 then decide (n ≠ 0) else decide (n * q > p * d)

/-- Result of a single-issue private check of the validator. -/
structure CheckOne where
  isValid : Bool
  issue : Str
  penalty : Int
deriving DecidableEq

/-- Result of a multi-issue private check of the validator. -/
structure CheckMany where
  isValid : Bool
  issues : List Str
  penalty : Int
deriving DecidableEq

/-- `ValidationResult` of services/qualityValidator.ts. -/
structure ValidationResult where
  isValid : Bool
  score : Int
  issues : List Str
  confidence : Int
deriving DecidableEq

/-- `ValidationConfig` of services/qualityValidator.ts. -/
structure ValidationConfig where
  minScore : Int
  maxRetries : Nat
  strictMode : Bool
deriving DecidableEq

/-- `DEFAULT_CONFIG` of the validator. -/
def DEFAULT_CONFIG : ValidationConfig := ⟨70, 3, true⟩

/-- The phrasal patterns of `containsQuestions` (all are literal strings
matched case-insensitively); the bare `/\?/` pattern is handled separately. -/
def questionPhrases : List Str :=
  [cl "could you", cl "would you like", cl "do you want", cl "should i",
   cl "what would you prefer", cl "would you prefer", cl "can you clarify",
   cl "do you need", cl "are you looking for", cl "what kind of",
   cl "which would you", cl "how would you like"]

/-- `EnhancementQualityValidator.containsQuestions`. -/
def containsQuestions (text : Str) : Bool :=
  text.contains '?' || questionPhrases.any (fun p => hasSubstrCI p text)

/-- The literal patterns of `containsExplanations`. -/
def explanationPhrases : List Str :=
  [cl "here is", cl "i have enhanced", cl "the improved version",
   cl "here" ++ [apos] ++ cl "s the enhanced",
   cl "i" ++ [apos] ++ cl "ve rewritten",
   cl "i" ++ [apos] ++ cl "ve improved",
   cl "the enhanced text", cl "below is the", cl "the following is",
   cl "i" ++ [apos] ++ cl "ve made the following",
   cl "here are the improvements", cl "the revised version"]

/-- `EnhancementQualityValidator.containsExplanations`. -/
def containsExplanations (text : Str) : Bool :=
  explanationPhrases.any (fun p => hasSubstrCI p text)

/-- The literal patterns of `containsMetaCommentary`. -/
def metaPhrases : List Str :=
  [cl "i understand", cl "based on your request", cl "as requested",
   cl "to improve", cl "in order to enhance", cl "for better",
   cl "this will help", cl "the goal is to",
   cl "i" ++ [apos] ++ cl "ve focused on",
   cl "the changes include", cl "improvements made", cl "to make it more"]

/-- `EnhancementQualityValidator.containsMetaCommentary`. -/
def containsMetaCommentary (text : Str) : Bool :=
  metaPhrases.any (fun p => hasSubstrCI p text)

/-- `EnhancementQualityValidator.validateLength`.  The JavaScript code
computes `ratio = enhanced.length / original.length` as a double and
compares it against `0.3` and `4.0`. -/
def validateLength (original enhanced : Str) : CheckOne :=
  let originalLength := original.length
  let enhancedLength := enhanced.length
  if ratioLtFrac enhancedLength originalLength 3 10 then
    ⟨false, cl "Enhanced text is too short (less than 30% of original)", 30⟩
  else if ratioGtFrac enhancedLength originalLength 4 1 then
    ⟨false, cl "Enhanced text is too long (more than 400% of original)", 25⟩
  else if enhancedLength < 10 then
    ⟨false, cl "Enhanced text is extremely short", 40⟩
  else ⟨true, [], 0⟩

/-- `EnhancementQualityValidator.validateContentPreservation`. -/
def validateContentPreservation (original enhanced : Str) : CheckOne :=
  if trimL original = trimL enhanced then
    ⟨false, cl "No enhancement detected - text is identical to original", 50⟩
  else
    let originalWords := jsSplitWs (lowerStr original)
    let enhancedWords := jsSplitWs (lowerStr enhanced)
    let commonWords := originalWords.filter
      (fun w => enhancedWords.contains w && decide (w.length > 3))
    if ratioLtFrac commonWords.length (max originalWords.length 1) 3 10 then
      ⟨false, cl "Enhanced text appears to be completely different content", 45⟩
    else ⟨true, [], 0⟩

/-- Model of the JavaScript test `enhanced.match(/[.!?]$/)`: without the `m`
flag, `$` asserts the very end of the input. -/
def endsWithPunct (s : Str) : Bool :=
  match s.getLast? with
  | some c => c == '.' || c == '!' || c == '?'
  | none => false

/-- `EnhancementQualityValidator.validateBasicQuality`. -/
def validateBasicQuality (enhanced : Str) : CheckMany :=
  let emptyResp := (trimL enhanced).isEmpty
  let incomplete := decide ((trimL enhanced).length > 20) && !endsWithPunct enhanced
  let words := jsSplitWs enhanced
  let bigClean := (words.map (fun w => (lowerStr w).filter isWordChar)).filter
    (fun w => decide (w.length > 4))
  let repeated := bigClean.any (fun w => decide (bigClean.count w > 3))
  let issues : List Str :=
    (if emptyResp then [cl "Response is empty or contains only whitespace"] else [])
    ++ (if incomplete then
          [cl "Response appears to be incomplete (no ending punctuation)"] else [])
    ++ (if repeated then [cl "Response contains excessive word repetition"] else [])
  let penalty : Int :=
    (if emptyResp then 100 else 0) + (if incomplete then 15 else 0)
    + (if repeated then 10 else 0)
  ⟨issues.isEmpty, issues, penalty⟩

/-- `EnhancementQualityValidator.validateToneConsistency`. -/
def validateToneConsistency (original enhanced : Str) : CheckOne :=
  let originalHasQuestion := original.contains '?'
  let enhancedHasQuestion := enhanced.contains '?'
  if originalHasQuestion && !enhancedHasQuestion then
    ⟨false, cl "Original questions were removed in enhancement", 20⟩
  else
    let originalCaps := original.countP (fun c => 'A' ≤ c && c ≤ 'Z')
    let enhancedCaps := enhanced.countP (fun c => 'A' ≤ c && c ≤ 'Z')
    let m := max originalCaps 1
    if ratioGtFrac enhancedCaps m 3 1 || ratioLtFrac enhancedCaps m 3 10 then
      ⟨false, cl "Significant tone shift detected in capitalization", 15⟩
    else ⟨true, [], 0⟩

/-- The AI-self-reference patterns of `strictModeValidation`. -/
def aiPhrases : List Str :=
  [cl "as an ai",
   cl "i" ++ [apos] ++ cl "m an ai",
   cl "i cannot",
   cl "i don" ++ [apos] ++ cl "t have",
   cl "i" ++ [apos] ++ cl "m not able",
   cl "i apologize",
   cl "i" ++ [apos] ++ cl "m sorry",
   cl "unfortunately",
   cl "however, i"]

/-- `regexTwo p q s` models a regular expression of shape `p.*q` tested on a
single line (`.` does not match line terminators): it holds when an
occurrence of `p` is followed, later in the line, by an occurrence of `q`. -/
def regexTwo (p q s : Str) : Bool :=
  match findSplit p s with
  | none => false
  | some (_, rest) => hasSubstr q rest

/-- A line-terminator character for the JavaScript `.` class. -/
def isLineTerm (c : Char) : Bool :=
  c == Char.ofNat 10 || c == Char.ofNat 13 ||
  c == Char.ofNat 8232 || c == Char.ofNat 8233

/-- Split a text into the maximal spans free of line terminators; a match of
`p.*q` must lie inside one such span. -/
def splitLines (s : Str) : List Str :=
  match s with
  | [] => [[]]
  | c :: rest =>
    let r := splitLines rest
    if isLineTerm c then [] :: r
    else
      match r with
      | [] => [[c]]
      | l :: ls => (c :: l) :: ls

/-- The formatting-markup detection of `strictModeValidation`: the five
patterns `\*\*.*\*\*`, `\*.*\*`, `#.*#`, three-backtick pairs and
`\[.*\]`. -/
def formattingLeak (enhanced : Str) : Bool :=
  (splitLines enhanced).any (fun l =>
    regexTwo (cl "**") (cl "**") l || regexTwo (cl "*") (cl "*") l ||
    regexTwo (cl "#") (cl "#") l || regexTwo (cl "```") (cl "```") l ||
    regexTwo (cl "[") (cl "]") l)

/-- `EnhancementQualityValidator.strictModeValidation`. -/
def strictModeValidation (enhanced : Str) : CheckMany :=
  let ai := aiPhrases.any (fun p => hasSubstrCI p enhanced)
  let fmt := formattingLeak enhanced
  let issues : List Str :=
    (if ai then [cl "Response contains AI-like phrases or limitations"] else [])
    ++ (if fmt then
          [cl "Response contains formatting markup instead of plain text"] else [])
  let penalty : Int := (if ai then 25 else 0) + (if fmt then 10 else 0)
  ⟨issues.isEmpty, issues, penalty⟩

/-- The issue text pushed by the question check. -/
def questionIssue : Str := cl "Response contains questions instead of enhancement"

/-- The issue text pushed by the explanation check. -/
def explanationIssue : Str :=
  cl "Response contains explanations instead of direct enhancement"

/-- The issue text pushed by the meta-commentary check. -/
def metaIssue : Str :=
  cl "Response contains meta-commentary about the enhancement process"

/-- `EnhancementQualityValidator.validateEnhancement`: runs the eight checks
in source order, accumulating issue messages and subtracting penalties from
the starting score of 100 (and confidence deductions from 100), clamps both
at 0, and reports `isValid = score >= minScore && issues.length === 0`. -/
def validateEnhancement (original enhanced : Str) (config : ValidationConfig) :
    ValidationResult :=
  let q := containsQuestions enhanced
  let ex := containsExplanations enhanced
  let mc := containsMetaCommentary enhanced
  let lv := validateLength original enhanced
  let cv := validateContentPreservation original enhanced
  let bv := validateBasicQuality enhanced
  let tv := validateToneConsistency original enhanced
  let sv := strictModeValidation enhanced
  let strictFired := config.strictMode && !sv.isValid
  let issues : List Str :=
    (if q then [questionIssue] else [])
    ++ (if ex then [explanationIssue] else [])
    ++ (if mc then [metaIssue] else [])
    ++ (if lv.isValid then [] else [lv.issue])
    ++ (if cv.isValid then [] else [cv.issue])
    ++ (if bv.isValid then [] else bv.issues)
    ++ (if tv.isValid then [] else [tv.issue])
    ++ (if strictFired then sv.issues else [])
  let score : Int :=
    100 - (if q then 60 else 0) - (if ex then 40 else 0) - (if mc then 35 else 0)
    - (if lv.isValid then 0 else lv.penalty)
    - (if cv.isValid then 0 else cv.penalty)
    - (if bv.isValid then 0 else bv.penalty)
    - (if tv.isValid then 0 else tv.penalty)
    - (if strictFired then sv.penalty else 0)
  let confidence : Int :=
    100 - (if q then 40 else 0) - (if ex then 30 else 0) - (if mc then 25 else 0)
    - (if lv.isValid then 0 else 15)
    - (if cv.isValid then 0 else 20)
    - (if bv.isValid then 0 else 10)
    - (if tv.isValid then 0 else 10)
    - (if strictFired then 15 else 0)
  let score2 := max 0 score
  let confidence2 := max 0 confidence
  { isValid := decide (score2 ≥ config.minScore) && issues.isEmpty
    score := score2
    issues := issues
    confidence := confidence2 }

/-- `validateTextLength` of lib/validations.ts (the default for `maxLength`
at the call-free definition site is 8000). -/
def validateTextLength (text : Str) (maxLength : Nat) : Bool :=
  decide (text.length > 0) && decide (text.length ≤ maxLength)

namespace SingleModelEnhancer

/-- The configuration passed to the Stage-1 validation inside
`SingleModelEnhancer.enhanceText`. -/
def stage1Config : ValidationConfig := ⟨70, 2, true⟩

/-- The configuration passed to the retry (Stage-2) validation inside
`SingleModelEnhancer.enhanceText`. -/
def retryConfig : ValidationConfig := ⟨60, 1, true⟩

/-- Outcome of the retry controller: the text placed in the final
`EnhancementResponse`, the quality score reported, and the number of
`callOptimalModel` network calls that were issued. -/
structure Outcome where
  text : Str
  qualityScore : Int
  calls : Nat
deriving DecidableEq

/-- Model of the control flow of `SingleModelEnhancer.enhanceText`.  The two
possible model responses (already trimmed, as `callOptimalModel` trims the
API content) are supplied as oracle inputs `s1` (first call) and `s2`
(retry call); `calls` counts how many of them the control flow consumes.
The function performs no input-length check: the first model call is
unconditional. -/
def enhanceText (requestText s1 s2 : Str) : Outcome :=
  let validation := validateEnhancement requestText s1 stage1Config
  if !validation.isValid && decide (validation.score < 70) then
    let retryValidation := validateEnhancement requestText s2 retryConfig
    if retryValidation.isValid || decide (retryValidation.score > validation.score) then
      ⟨s2, retryValidation.score, 2⟩
    else ⟨s1, validation.score, 2⟩
  else ⟨s1, validation.score, 1⟩

end SingleModelEnhancer

namespace OpenRouterApiService

/-- The default error thrown when the model list is exhausted with no
recorded failure: `new OpenRouterApiError('All models failed to enhance
text')`. -/
def allModelsFailedError : Str := cl "All models failed to enhance text"

/-- The ordered model list of `OpenRouterApiService.enhanceText`. -/
def models : List Str :=
  [cl "moonshotai/kimi-k2:free", cl "anthropic/claude-3-haiku",
   cl "anthropic/claude-3.5-sonnet"]

/-- Loop body of the fallback orchestration: `attempts` are the oracle
outcomes of invoking each candidate in list order, `lastError` is the
`lastError` accumulator, `n` counts candidates invoked so far.  A success
returns immediately; a failure is recorded and the next candidate tried;
an exhausted list throws `lastError` or the default error. -/
def runFallbackAux : List (Except Str Str) → Option Str → Nat →
    Except Str Str × Nat
  | [], lastError, n => (Except.error (lastError.getD allModelsFailedError), n)
  | Except.ok v :: _, _, n => (Except.ok v, n + 1)
  | Except.error e :: rest, _, n => runFallbackAux rest (some e) (n + 1)

/-- Model of the fallback orchestration of `OpenRouterApiService.enhanceText`:
given the per-candidate outcomes in list order, returns the propagated
result together with the number of candidates actually invoked. -/
def runWithFallback (attempts : List (Except Str Str)) : Except Str Str × Nat :=
  runFallbackAux attempts none 0

end OpenRouterApiService

namespace PromptEnhancer

/-- `extractKeyInformation`: the word alternatives of the content-type
regular expression. -/
def contentTypeWords : List Str :=
  [cl "email", cl "post", cl "article", cl "report", cl "letter",
   cl "message", cl "announcement", cl "blog", cl "tweet", cl "caption"]

/-- The word alternatives of the length-requirement regular expression. -/
def lengthWords : List Str :=
  [cl "short", cl "long", cl "brief", cl "detailed", cl "concise",
   cl "comprehensive", cl "quick", cl "lengthy"]

/-- The word alternatives of the tone-indicator regular expression. -/
def toneWords : List Str :=
  [cl "formal", cl "casual", cl "friendly", cl "professional", cl "fun",
   cl "serious", cl "excited", cl "grateful", cl "celebratory"]

/-- The word alternatives of the audience-mention regular expression. -/
def audienceWords : List Str :=
  [cl "users", cl "customers", cl "team", cl "boss", cl "clients",
   cl "audience", cl "community", cl "followers"]

/-- The word alternatives of the platform regular expression. -/
def platformWords : List Str :=
  [cl "linkedin", cl "twitter", cl "facebook", cl "instagram", cl "email",
   cl "slack"]

/-- The noun alternatives of the achievement regular expression
`/\d+[k]?\s*(downloads|users|customers|sales|views|likes)/gi`. -/
def achieveWords : List Str :=
  [cl "downloads", cl "users", cl "customers", cl "sales", cl "views",
   cl "likes"]

/-- The adjective alternatives of `/not too (...)/gi`. -/
def avoidWords : List Str :=
  [cl "salesy", cl "promotional", cl "formal", cl "casual", cl "long",
   cl "short"]

/-- A word boundary `\b` holds before a word-character position when the
previous character (if any) is not a word character. -/
def boundaryBefore : Option Char → Bool
  | none => true
  | some c => !isWordChar c

/-- A word boundary `\b` holds after a match ending in a word character when
the next character (if any) is not a word character. -/
def boundaryAfter : Str → Bool
  | [] => true
  | c :: _ => !isWordChar c

/-- Scanner for `text.match(/\b(w1|w2|...)\b/i)`: at each position with a
preceding word boundary, the alternatives are tried in order and the first
whose characters match case-insensitively and whose trailing boundary holds
wins; the matched slice of the original text is returned.  `prev` is the
character just before the current position. -/
def findWordAux (alts : List Str) : Option Char → Str → Option Str
  | _, [] => none
  | prev, c :: rest =>
    if boundaryBefore prev then
      match alts.find? (fun w =>
          isPrefixCI w (c :: rest) && boundaryAfter ((c :: rest).drop w.length)) with
      | some w => some ((c :: rest).take w.length)
      | none => findWordAux alts (some c) rest
    else findWordAux alts (some c) rest

/-- First match of a word-boundary alternation regular expression, returning
the captured word as it appears in the text. -/
def findFirstWord (alts : List Str) (text : Str) : Option Str :=
  findWordAux alts none text

/-- Try to match `/\d+[k]?\s*(achieveWord)/i` at the head of `s`; on success
return the matched slice and the remaining text after it. -/
def matchAchieveAt (s : Str) : Option (Str × Str) :=
  let ds := s.takeWhile (fun c => '0' ≤ c && c ≤ '9')
  if ds.isEmpty then none
  else
    let r1 := s.drop ds.length
    let kpart : Str × Str :=
      match r1 with
      | c :: r => if lowerChar c == 'k' then ([c], r) else ([], r1)
      | [] => ([], r1)
    let ws := kpart.2.takeWhile isWsChar
    let r3 := kpart.2.drop ws.length
    match achieveWords.find? (fun w => isPrefixCI w r3) with
    | some w => some (ds ++ kpart.1 ++ ws ++ r3.take w.length, r3.drop w.length)
    | none => none

/-- Global scan for the achievement regular expression: leftmost matches,
resuming after each match, with a fuel argument bounding the scan. -/
def achieveAux : Nat → Str → List Str
  | 0, _ => []
  | _ + 1, [] => []
  | fuel + 1, c :: rest =>
    match matchAchieveAt (c :: rest) with
    | some (m, r) => m :: achieveAux fuel r
    | none => achieveAux fuel rest

/-- All matches of `/\d+[k]?\s*(downloads|users|...)/gi` in order. -/
def numberMatches (s : Str) : List Str := achieveAux s.length s

/-- Try to match `/not too (avoidWord)/i` at the head of `s`. -/
def matchAvoidAt (s : Str) : Option (Str × Str) :=
  if isPrefixCI (cl "not too ") s then
    let r := s.drop 8
    match avoidWords.find? (fun w => isPrefixCI w r) with
    | some w => some (s.take 8 ++ r.take w.length, r.drop w.length)
    | none => none
  else none

/-- Global scan for the `/not too (...)/gi` regular expression. -/
def avoidAux : Nat → Str → List Str
  | 0, _ => []
  | _ + 1, [] => []
  | fuel + 1, c :: rest =>
    match matchAvoidAt (c :: rest) with
    | some (m, r) => m :: avoidAux fuel r
    | none => avoidAux fuel rest

/-- All matches of `/not too (salesy|promotional|...)/gi` in order. -/
def avoidMatches (s : Str) : List Str := avoidAux s.length s

/-- The extraction result of `extractKeyInformation`. -/
structure ExtractedInfo where
  requirements : List Str
  contentSpecs : List Str
deriving DecidableEq

/-- `PromptEnhancer.extractKeyInformation` (the `analysis` argument of the
source is ignored by the function body and omitted here). -/
def extractKeyInformation (rawText : Str) : ExtractedInfo :=
  let specs1 : List Str :=
    match findFirstWord contentTypeWords rawText with
    | some m => [cl "Content type: " ++ m]
    | none => []
  let specs2 : List Str :=
    match findFirstWord lengthWords rawText with
    | some m => [cl "Length preference: " ++ m]
    | none => []
  let reqs1 : List Str :=
    match findFirstWord toneWords rawText with
    | some m => [cl "Tone should be " ++ m]
    | none => []
  let reqs2 : List Str :=
    (numberMatches rawText).map (fun m => cl "Highlight achievement: " ++ m)
  let reqs3 : List Str :=
    (avoidMatches rawText).map
      (fun m => cl "Avoid being " ++ replaceFirstL (cl "not too ") [] m)
  let reqs4 : List Str :=
    match findFirstWord audienceWords rawText with
    | some m => [cl "Target audience: " ++ m]
    | none => []
  let specs3 : List Str :=
    match findFirstWord platformWords rawText with
    | some m => [cl "Platform: " ++ m]
    | none => []
  let requirements := reqs1 ++ reqs2 ++ reqs3 ++ reqs4
  let contentSpecs := specs1 ++ specs2 ++ specs3
  { requirements :=
      if requirements.isEmpty then [cl "Improve overall clarity and engagement"]
      else requirements
    contentSpecs :=
      if contentSpecs.isEmpty then [cl "General text enhancement"]
      else contentSpecs }

/-- The option record destructured by `buildEnhancedPrompt`. -/
structure PromptOptions where
  enhancementType : Str
  tone : Str
  targetAudience : Option Str
  customInstructions : Option Str

/-- Interpolation of a JavaScript conditional `${x ? f(x) : ''}`: an absent
or empty (falsy) string contributes nothing. -/
def optPart (o : Option Str) (f : Str → Str) : Str :=
  match o with
  | some s => if s.isEmpty then [] else f s
  | none => []

/-- `xs.join('\n')`. -/
def joinNl : List Str → Str
  | [] => []
  | [x] => x
  | x :: xs => x ++ cl "\n" ++ joinNl xs

/-- `xs.map(x => bullet + x).join('\n')`. -/
def bulletJoin (xs : List Str) : Str := joinNl (xs.map (fun x => cl "• " ++ x))

/-- `PromptEnhancer.buildEnhancedPrompt`: the template literal of the source
with the extracted requirements, content specifications, optional audience
and custom-instruction lines, and the original text inside a triple-quote
fence.  Custom instructions are interpolated verbatim. -/
def buildEnhancedPrompt (rawText : Str) (options : PromptOptions) : Str :=
  let info := extractKeyInformation rawText
  cl "Enhance the following text with these specifications:\n\nENHANCEMENT TYPE: "
  ++ options.enhancementType
  ++ cl "\nTARGET TONE: " ++ options.tone ++ cl "\n"
  ++ optPart options.targetAudience (fun a => cl "TARGET AUDIENCE: " ++ a)
  ++ cl "\n\nEXTRACTED REQUIREMENTS:\n" ++ bulletJoin info.requirements
  ++ cl "\n\nCONTENT SPECIFICATIONS:\n" ++ bulletJoin info.contentSpecs
  ++ cl "\n\nQUALITY STANDARDS:\n• Maintain the original intent and key information\n• Improve clarity and readability\n• Ensure grammatical correctness\n• Match the specified tone consistently\n• Make the content engaging and purposeful\n\n"
  ++ optPart options.customInstructions (fun ci => cl "ADDITIONAL INSTRUCTIONS: " ++ ci)
  ++ cl "\n\nORIGINAL TEXT:\n\"\"\"\n" ++ rawText
  ++ cl "\n\"\"\"\n\nPlease provide the enhanced version:"

end PromptEnhancer

/-- The triple-quote delimiter used by the prompt fence. -/
def tripleQuote : Str := cl "\"\"\""

/-- The text strictly between the first two occurrences of the triple-quote
delimiter, when both exist. -/
def betweenFirstFence (s : Str) : Option Str :=
  match findSplit tripleQuote s with
  | none => none
  | some (_, rest) => (findSplit tripleQuote rest).map (fun p => p.1)

/-- The text strictly between the first occurrence of header `h1` and the
following occurrence of header `h2`, when both exist. -/
def sectionBetween (h1 h2 s : Str) : Option Str :=
  match findSplit h1 s with
  | none => none
  | some (_, rest) => (findSplit h2 rest).map (fun p => p.1)

/-! ### Concrete instances used by the claims -/

/-- The candidate text of end-to-end scenario 2. -/
def qC6 : Str := cl "Could you clarify what tone you want?"

/-- A concrete original text for exercising the retry controller. -/
def tC2 : Str := cl "alpha beta gamma delta epsilon zeta"

/-- A Stage-1 candidate identical to the original (invalid, score 20). -/
def s1C2 : Str := tC2

/-- A Stage-2 candidate differing from `s1C2` but with the same validation
score of 20. -/
def s2C2 : Str := tC2 ++ cl " "

/-- The raw input of end-to-end scenario 1. -/
def rawC8 : Str := cl "uh i need like a short linkedin post..."

/-- The prompt the builder produces for scenario 1 with
`enhancementType = general` (default tone `professional`). -/
def promptC8 : Str :=
  PromptEnhancer.buildEnhancedPrompt rawC8 ⟨cl "general", cl "professional", none, none⟩

/-- A concrete raw text that triggers none of the extraction patterns. -/
def rawC9 : Str := cl "make this sound better please"

/-- `quoteFree s` holds when `s` contains no double-quote character, hence
no triple-quote delimiter. -/
def quoteFree (s : Str) : Bool := s.all (fun c => !(c == '"'))

/-- The custom-instruction line inserted by the template. -/
def addInstr (s : Str) : Str := cl "ADDITIONAL INSTRUCTIONS: " ++ s

/-- The concrete part of the built prompt for `rawC9` that precedes the
custom-instruction interpolation. -/
def preC9 : Str := cl "Enhance the following text with these specifications:\n\nENHANCEMENT TYPE: general\nTARGET TONE: professional\n\n\nEXTRACTED REQUIREMENTS:\n• Improve overall clarity and engagement\n\nCONTENT SPECIFICATIONS:\n• General text enhancement\n\nQUALITY STANDARDS:\n• Maintain the original intent and key information\n• Improve clarity and readability\n• Ensure grammatical correctness\n• Match the specified tone consistently\n• Make the content engaging and purposeful\n\n"

/-- Everything of the built prompt for `rawC9` before the opening fence. -/
def aC9 (ci : Str) : Str :=
  preC9 ++ (PromptEnhancer.optPart (some ci) addInstr ++ cl "\n\nORIGINAL TEXT:\n")

/-- The fence content the template intends: the raw text framed by the two
newlines of the template. -/
def midC9 : Str := cl "\n" ++ rawC9 ++ cl "\n"

/-- Everything of the built prompt after the closing fence. -/
def tailC9 : Str := cl "\n\nPlease provide the enhanced version:"

/-- A custom-instruction string containing the triple-quote delimiter. -/
def ciBadC9 : Str := cl "x" ++ tripleQuote ++ cl "y" ++ tripleQuote ++ cl "z"

/-! ### Structural lemmas about the validator -/

theorem validateLength_penalty_nonneg (o e : Str) :
    0 ≤ (validateLength o e).penalty := by
  unfold validateLength
  dsimp only
  split_ifs <;> decide

theorem validateContentPreservation_penalty_nonneg (o e : Str) :
    0 ≤ (validateContentPreservation o e).penalty := by
  unfold validateContentPreservation
  dsimp only
  split_ifs <;> decide

theorem validateBasicQuality_penalty_nonneg (e : Str) :
    0 ≤ (validateBasicQuality e).penalty := by
  unfold validateBasicQuality
  dsimp only
  split_ifs <;> decide

theorem validateToneConsistency_penalty_nonneg (o e : Str) :
    0 ≤ (validateToneConsistency o e).penalty := by
  unfold validateToneConsistency
  dsimp only
  split_ifs <;> decide

theorem strictModeValidation_penalty_nonneg (e : Str) :
    0 ≤ (strictModeValidation e).penalty := by
  unfold strictModeValidation
  dsimp only
  split_ifs <;> decide

theorem validateBasicQuality_isValid_def (e : Str) :
    (validateBasicQuality e).isValid = (validateBasicQuality e).issues.isEmpty := rfl

theorem strictModeValidation_isValid_def (e : Str) :
    (strictModeValidation e).isValid = (strictModeValidation e).issues.isEmpty := rfl

/-- The `isValid` field of a validation result is, definitionally, the
conjunction from the source: `score >= minScore && issues.length === 0`. -/
theorem validateEnhancement_isValid_def (o e : Str) (cfg : ValidationConfig) :
    (validateEnhancement o e cfg).isValid
      = (decide ((validateEnhancement o e cfg).score ≥ cfg.minScore)
          && (validateEnhancement o e cfg).issues.isEmpty) := rfl

/-- Every penalty subtraction in `validateEnhancement` is accompanied by at
least one pushed issue, so an empty issue list forces the full score of
100. -/
theorem validateEnhancement_score_of_issues_nil (o e : Str) (cfg : ValidationConfig)
    (h : (validateEnhancement o e cfg).issues = []) :
    (validateEnhancement o e cfg).score = 100 := by
  unfold validateEnhancement at h ⊢
  dsimp only at h ⊢
  simp only [List.append_eq_nil] at h
  obtain ⟨⟨⟨⟨⟨⟨⟨h1, h2⟩, h3⟩, h4⟩, h5⟩, h6⟩, h7⟩, h8⟩ := h
  have e1 : containsQuestions e = false := by
    revert h1; cases containsQuestions e <;> simp
  have e2 : containsExplanations e = false := by
    revert h2; cases containsExplanations e <;> simp
  have e3 : containsMetaCommentary e = false := by
    revert h3; cases containsMetaCommentary e <;> simp
  have e4 : (validateLength o e).isValid = true := by
    revert h4; cases (validateLength o e).isValid <;> simp
  have e5 : (validateContentPreservation o e).isValid = true := by
    revert h5; cases (validateContentPreservation o e).isValid <;> simp
  have e6 : (validateBasicQuality e).isValid = true := by
    cases hv : (validateBasicQuality e).isValid
    · exfalso
      rw [hv] at h6
      simp at h6
      have hd := validateBasicQuality_isValid_def e
      rw [hv, h6] at hd
      simp at hd
    · rfl
  have e7 : (validateToneConsistency o e).isValid = true := by
    revert h7; cases (validateToneConsistency o e).isValid <;> simp
  have e8 : (cfg.strictMode && !(strictModeValidation e).isValid) = false := by
    cases hc : (cfg.strictMode && !(strictModeValidation e).isValid)
    · rfl
    · rw [hc] at h8
      simp only [if_pos] at h8
      have hsv : (strictModeValidation e).isValid = true := by
        rw [strictModeValidation_isValid_def, h8]
        rfl
      rw [Bool.and_eq_true] at hc
      rw [hsv] at hc
      simp at hc
  rw [e1, e2, e3, e4, e5, e6, e7, e8]
  norm_num

theorem ite_const_nonneg (b : Bool) (p : Int) (hp : 0 ≤ p) :
    0 ≤ if b = true then p else 0 := by cases b <;> simp [hp]

theorem ite_zero_pen_nonneg (b : Bool) (p : Int) (hp : 0 ≤ p) :
    0 ≤ if b = true then 0 else p := by cases b <;> simp [hp]

/-- A fired question check places its issue in the final issue list. -/
theorem question_issue_mem (o e : Str) (cfg : ValidationConfig)
    (hq : containsQuestions e = true) :
    questionIssue ∈ (validateEnhancement o e cfg).issues := by
  unfold validateEnhancement
  dsimp only
  simp [hq]

/-- A fired length check places its issue in the final issue list. -/
theorem lv_issue_mem (o e : Str) (cfg : ValidationConfig)
    (h : (validateLength o e).isValid = false) :
    (validateLength o e).issue ∈ (validateEnhancement o e cfg).issues := by
  unfold validateEnhancement
  dsimp only
  simp [h]

/-- A fired content-preservation check places its issue in the final issue
list. -/
theorem cv_issue_mem (o e : Str) (cfg : ValidationConfig)
    (h : (validateContentPreservation o e).isValid = false) :
    (validateContentPreservation o e).issue ∈ (validateEnhancement o e cfg).issues := by
  unfold validateEnhancement
  dsimp only
  simp [h]

/-- On identical input and output, the content-preservation check fires with
the no-enhancement issue and penalty 50. -/
theorem validateContentPreservation_self (x : Str) :
    validateContentPreservation x x
      = ⟨false, cl "No enhancement detected - text is identical to original", 50⟩ := by
  unfold validateContentPreservation
  rw [if_pos rfl]

/-! ### Claim theorems -/

/-- Claim C1: for every pair of strings and every configuration, the result
of `validateEnhancement` has `isValid = true` exactly when the score reaches
`minScore` and the issue list is empty; in particular a result at or above
the threshold with a non-empty issue list is invalid. -/
theorem c1_isValid_iff_score_and_no_issues (original enhanced : Str)
    (config : ValidationConfig) :
    (validateEnhancement original enhanced config).isValid = true
      ↔ (config.minScore ≤ (validateEnhancement original enhanced config).score
          ∧ (validateEnhancement original enhanced config).issues = []) := by
  rw [validateEnhancement_isValid_def]
  simp [List.isEmpty_iff, ge_iff_le]

/-- Claim C5: validating a candidate identical to the original always yields
a score of at most 50 and an invalid result, since the no-enhancement
content-preservation violation fires. -/
theorem c5_identical_scores_at_most_50 (x : Str) (config : ValidationConfig) :
    (validateEnhancement x x config).score ≤ 50
      ∧ (validateEnhancement x x config).isValid = false := by
  have hcv : (validateContentPreservation x x).isValid = false := by
    rw [validateContentPreservation_self]
  constructor
  · have n4 := validateLength_penalty_nonneg x x
    have n6 := validateBasicQuality_penalty_nonneg x
    have n7 := validateToneConsistency_penalty_nonneg x x
    have n8 := strictModeValidation_penalty_nonneg x
    unfold validateEnhancement
    dsimp only
    rw [validateContentPreservation_self]
    dsimp only
    simp only [Bool.false_eq_true, if_false]
    split_ifs <;> omega
  · rw [validateEnhancement_isValid_def]
    have hne := List.ne_nil_of_mem (cv_issue_mem x x config hcv)
    cases hi : (validateEnhancement x x config).issues with
    | nil => exact absurd hi hne
    | cons a l => simp [hi]

/-- Claim C6: for every original string, validating the candidate
`"Could you clarify what tone you want?"` reports the question violation and
scores at most 40 (the question check alone deducts 60 and the remaining
penalties only push the score further down). -/
theorem c6_question_candidate_penalised (original : Str) (config : ValidationConfig) :
    questionIssue ∈ (validateEnhancement original qC6 config).issues
      ∧ (validateEnhancement original qC6 config).score ≤ 40 := by
  have hq : containsQuestions qC6 = true := by decide
  refine ⟨question_issue_mem original qC6 config hq, ?_⟩
  have h2 : containsExplanations qC6 = false := by decide
  have h3 : containsMetaCommentary qC6 = false := by decide
  have hbv : (validateBasicQuality qC6).isValid = true := by decide
  have hsv : (strictModeValidation qC6).isValid = true := by decide
  have n4 := validateLength_penalty_nonneg original qC6
  have n5 := validateContentPreservation_penalty_nonneg original qC6
  have n7 := validateToneConsistency_penalty_nonneg original qC6
  unfold validateEnhancement
  dsimp only
  simp only [hq, h2, h3, hbv, hsv, Bool.not_true, Bool.and_false, Bool.false_eq_true,
    if_false, if_true]
  split_ifs <;> omega

/-- Claim C2 (amended): whenever the retry validation score does not exceed
the Stage-1 score, the Stage-1 candidate text is the one placed in the final
result — the higher-scoring candidate is kept, with a tie going to the
Stage-1 result.  (The case where no retry happens keeps Stage 1 trivially;
when a retry happens, a retry result with a score at most the Stage-1 score,
hence below 100, necessarily carries issues and is invalid, so neither
disjunct of the acceptance condition holds.) -/
theorem c2_stage1_kept_when_retry_not_higher (t s1 s2 : Str)
    (hle : (validateEnhancement t s2 SingleModelEnhancer.retryConfig).score
        ≤ (validateEnhancement t s1 SingleModelEnhancer.stage1Config).score) :
    (SingleModelEnhancer.enhanceText t s1 s2).text = s1 := by
  unfold SingleModelEnhancer.enhanceText
  dsimp only
  split_ifs with hgate hin
  · exfalso
    have hs70 : (validateEnhancement t s1 SingleModelEnhancer.stage1Config).score < 70 := by
      have h := (Bool.and_eq_true _ _).mp hgate
      exact of_decide_eq_true h.2
    rcases (Bool.or_eq_true _ _).mp hin with hvalid | hgt
    · have hiss : (validateEnhancement t s2 SingleModelEnhancer.retryConfig).issues = [] := by
        have hd := validateEnhancement_isValid_def t s2 SingleModelEnhancer.retryConfig
        rw [hvalid] at hd
        have h2 := (Bool.and_eq_true _ _).mp hd.symm
        exact List.isEmpty_iff.mp h2.2
      have h100 := validateEnhancement_score_of_issues_nil t s2
        SingleModelEnhancer.retryConfig hiss
      omega
    · have := of_decide_eq_true hgt
      omega
  · rfl
  · rfl

/-- Claim C2 (counterexample to the tie clause): a concrete run in which the
retry is triggered, the two validation scores are equal, and yet the Stage-1
candidate — not the retry result — ends up in the final result. -/
theorem c2_counterexample_tie_keeps_stage1 :
    (validateEnhancement tC2 s1C2 SingleModelEnhancer.stage1Config).isValid = false
    ∧ (validateEnhancement tC2 s1C2 SingleModelEnhancer.stage1Config).score < 70
    ∧ (validateEnhancement tC2 s2C2 SingleModelEnhancer.retryConfig).score
        = (validateEnhancement tC2 s1C2 SingleModelEnhancer.stage1Config).score
    ∧ (SingleModelEnhancer.enhanceText tC2 s1C2 s2C2).calls = 2
    ∧ (SingleModelEnhancer.enhanceText tC2 s1C2 s2C2).text = s1C2
    ∧ s1C2 ≠ s2C2 := by decide

/-- Witness for C2: the amended theorem applied at the concrete tie run. -/
theorem c2_stage1_kept_witness :
    (validateEnhancement tC2 s2C2 SingleModelEnhancer.retryConfig).score
        ≤ (validateEnhancement tC2 s1C2 SingleModelEnhancer.stage1Config).score
    ∧ (SingleModelEnhancer.enhanceText tC2 s1C2 s2C2).text = s1C2 :=
  ⟨by decide, c2_stage1_kept_when_retry_not_higher tC2 s1C2 s2C2 (by decide)⟩

/-- Claim C3: the Stage-2 retry call happens exactly when the Stage-1
validation is invalid and its score is below 70. -/
theorem c3_retry_gate_iff (t s1 s2 : Str) :
    (SingleModelEnhancer.enhanceText t s1 s2).calls = 2
      ↔ ((validateEnhancement t s1 SingleModelEnhancer.stage1Config).isValid = false
          ∧ (validateEnhancement t s1 SingleModelEnhancer.stage1Config).score < 70) := by
  unfold SingleModelEnhancer.enhanceText
  dsimp only
  split_ifs with hgate hin
  · have h := (Bool.and_eq_true _ _).mp hgate
    have h1 := (Bool.not_eq_true' _).mp h.1
    have h2 := of_decide_eq_true h.2
    simp [h1, h2]
  · have h := (Bool.and_eq_true _ _).mp hgate
    have h1 := (Bool.not_eq_true' _).mp h.1
    have h2 := of_decide_eq_true h.2
    simp [h1, h2]
  · constructor
    · intro h
      simp at h
    · rintro ⟨h1, h2⟩
      exact absurd (by rw [h1]; simpa using h2) hgate

/-- Unrolling the fallback loop over a prefix of failures: each failure is
recorded into the accumulator and the scan continues. -/
theorem runFallbackAux_all_errors (es : List Str) (lastError : Option Str) (n : Nat) :
    OpenRouterApiService.runFallbackAux (es.map Except.error) lastError n
      = (Except.error (es.getLastD (lastError.getD OpenRouterApiService.allModelsFailedError)),
          n + es.length) := by
  induction es generalizing lastError n with
  | nil => simp [OpenRouterApiService.runFallbackAux]
  | cons e es ih =>
    simp only [List.map_cons, OpenRouterApiService.runFallbackAux, ih, Option.getD_some,
      List.getLastD_cons, List.length_cons]
    have harith : n + 1 + es.length = n + (es.length + 1) := by omega
    rw [harith]

/-- Unrolling the fallback loop up to the first success: the successful
value is returned right away. -/
theorem runFallbackAux_first_ok (es : List Str) (v : Str) (bs : List (Except Str Str))
    (lastError : Option Str) (n : Nat) :
    OpenRouterApiService.runFallbackAux (es.map Except.error ++ Except.ok v :: bs) lastError n
      = (Except.ok v, n + es.length + 1) := by
  induction es generalizing lastError n with
  | nil => simp [OpenRouterApiService.runFallbackAux]
  | cons e es ih =>
    simp only [List.map_cons, List.cons_append, OpenRouterApiService.runFallbackAux,
      List.length_cons, List.append_eq]
    rw [ih]
    have harith : n + 1 + es.length + 1 = n + (es.length + 1) + 1 := by omega
    rw [harith]

/-- Claim C4: the fallback orchestration returns the first successful
candidate immediately — after a prefix of `k` failures the success of
candidate `k + 1` is returned having invoked exactly `k + 1` candidates,
none after it — and when every candidate fails, the error propagated is the
one recorded for the **last** candidate of the list. -/
theorem c4_fallback_first_success_last_error :
    (∀ (es : List Str) (v : Str) (bs : List (Except Str Str)),
        OpenRouterApiService.runWithFallback (es.map Except.error ++ Except.ok v :: bs)
          = (Except.ok v, es.length + 1))
    ∧ (∀ es : List Str,
        OpenRouterApiService.runWithFallback (es.map Except.error)
          = (Except.error (es.getLastD OpenRouterApiService.allModelsFailedError),
              es.length)) := by
  constructor
  · intro es v bs
    unfold OpenRouterApiService.runWithFallback
    rw [runFallbackAux_first_ok]
    simp
  · intro es
    unfold OpenRouterApiService.runWithFallback
    rw [runFallbackAux_all_errors]
    simp

/-- Claim C7: `validateTextLength` rejects the empty text and texts longer
than 8000 characters, but the retry controller issues its first model call
unconditionally — for every request text, including the invalid ones, at
least one network call is made, so no rejection happens before the network
call. -/
theorem c7_no_rejection_before_network_call :
    validateTextLength (cl "") 8000 = false
    ∧ validateTextLength (List.replicate 8001 'a') 8000 = false
    ∧ ∀ t s1 s2 : Str, 1 ≤ (SingleModelEnhancer.enhanceText t s1 s2).calls := by
  refine ⟨by decide, ?_, ?_⟩
  · unfold validateTextLength
    rw [List.length_replicate]
    decide
  · intro t s1 s2
    unfold SingleModelEnhancer.enhanceText
    dsimp only
    split_ifs <;> simp

/-- With an empty original, the length ratio is `enhanced.length / 0`, which
is `Infinity` for a non-empty candidate, so the too-long branch of
`validateLength` fires. -/
theorem validateLength_empty_original (c : Str) (h : c ≠ []) :
    validateLength [] c
      = ⟨false, cl "Enhanced text is too long (more than 400% of original)", 25⟩ := by
  have hlen : c.length ≠ 0 := by
    simpa [List.length_eq_zero] using h
  unfold validateLength ratioLtFrac ratioGtFrac
  simp [hlen]

/-- Claim C10 (amended): with an empty original the ratio is `Infinity` (not
`NaN`) for any non-empty candidate, so the too-long branch fires:
`validateEnhancement "" candidate` always reports the too-long length-ratio
violation for candidates of length at least 10. -/
theorem c10_empty_original_reports_too_long (c : Str) (config : ValidationConfig)
    (h : 10 ≤ c.length) :
    cl "Enhanced text is too long (more than 400% of original)"
      ∈ (validateEnhancement [] c config).issues := by
  have hne : c ≠ [] := by
    intro hc
    rw [hc] at h
    simp at h
  have hlv := validateLength_empty_original c hne
  have hinv : (validateLength [] c).isValid = false := by rw [hlv]
  have hmem := lv_issue_mem [] c config hinv
  rw [hlv] at hmem
  exact hmem

/-- Claim C10 (counterexample): a candidate of length at least 10 paired
with the empty original does get a length-ratio violation reported — the
too-long branch fires, refuting the claim that neither ratio branch can
fire. -/
theorem c10_counterexample_too_long_fires :
    10 ≤ (cl "abcdefghijk").length
    ∧ cl "Enhanced text is too long (more than 400% of original)"
        ∈ (validateEnhancement [] (cl "abcdefghijk") DEFAULT_CONFIG).issues := by decide

/-- Witness for C10: the amended theorem applied at a concrete candidate. -/
theorem c10_empty_original_witness :
    10 ≤ (cl "abcdefghijkl").length
    ∧ cl "Enhanced text is too long (more than 400% of original)"
        ∈ (validateEnhancement [] (cl "abcdefghijkl") DEFAULT_CONFIG).issues :=
  ⟨by decide, c10_empty_original_reports_too_long (cl "abcdefghijkl") DEFAULT_CONFIG (by decide)⟩

/-- Claim C8 (counterexample): in the prompt built for
`"uh i need like a short linkedin post..."` the EXTRACTED REQUIREMENTS
section (the text between its header and the CONTENT SPECIFICATIONS header)
mentions neither the length cue "short" nor the platform cue "linkedin" —
those cues are pushed to `contentSpecs`, not `requirements`. -/
theorem c8_counterexample_cues_not_in_requirements :
    (sectionBetween (cl "EXTRACTED REQUIREMENTS:") (cl "CONTENT SPECIFICATIONS:") promptC8).map
        (fun seg => hasSubstr (cl "short") seg || hasSubstr (cl "linkedin") seg)
      = some false := by decide

/-- Claim C8 (amended): the prompt does contain an EXTRACTED REQUIREMENTS
section, and the detected cues "Length preference: short" and
"Platform: linkedin" appear in the CONTENT SPECIFICATIONS section of the
prompt. -/
theorem c8_cues_in_content_specifications :
    hasSubstr (cl "EXTRACTED REQUIREMENTS:") promptC8 = true
    ∧ (sectionBetween (cl "CONTENT SPECIFICATIONS:") (cl "QUALITY STANDARDS:") promptC8).map
        (fun seg => hasSubstr (cl "Length preference: short") seg
          && hasSubstr (cl "Platform: linkedin") seg)
      = some true := by decide

theorem quoteFree_append (a b : Str) :
    quoteFree (a ++ b) = (quoteFree a && quoteFree b) := by
  unfold quoteFree
  exact List.all_append

theorem isPrefixL_append_self (p s : Str) : isPrefixL p (p ++ s) = true := by
  induction p with
  | nil => rfl
  | cons c cs ih => simp [isPrefixL, ih]

theorem findSplit_append_self (pat s : Str) (hne : pat ≠ []) :
    findSplit pat (pat ++ s) = some ([], s) := by
  cases pat with
  | nil => exact absurd rfl hne
  | cons p ps =>
    rw [List.cons_append]
    unfold findSplit
    rw [if_pos]
    · simp [List.drop_left]
    · have h := isPrefixL_append_self (p :: ps) s
      rw [List.cons_append] at h
      exact h

theorem findSplit_cons (pat : Str) (c : Char) (rest : Str) :
    findSplit pat (c :: rest)
      = if isPrefixL pat (c :: rest) = true then some ([], (c :: rest).drop pat.length)
        else (findSplit pat rest).map (fun p => (c :: p.1, p.2)) := rfl

theorem findSplit_tq_append (a s : Str) (ha : quoteFree a = true) :
    findSplit tripleQuote (a ++ s)
      = (findSplit tripleQuote s).map (fun p => (a ++ p.1, p.2)) := by
  induction a with
  | nil =>
    simp only [List.nil_append]
    cases findSplit tripleQuote s with
    | none => rfl
    | some p => simp
  | cons c a ih =>
    have hqa := ha
    unfold quoteFree at hqa
    rw [List.all_cons] at hqa
    have hparts := (Bool.and_eq_true _ _).mp hqa
    have hc : (c == '"') = false := (Bool.not_eq_true' _).mp hparts.1
    have ha' : quoteFree a = true := hparts.2
    have hnp : isPrefixL tripleQuote (c :: (a ++ s)) = false := by
      have hcc : ('"' == c) = false := by
        rw [beq_eq_false_iff_ne] at hc ⊢
        exact fun hcon => hc hcon.symm
      have htq : tripleQuote = '"' :: '"' :: '"' :: [] := rfl
      rw [htq]
      simp [isPrefixL, hcc]
    rw [List.cons_append]
    rw [findSplit_cons]
    rw [hnp]
    simp only [Bool.false_eq_true, if_false]
    rw [ih ha']
    cases findSplit tripleQuote s with
    | none => rfl
    | some p => simp

/-- When the text before the opening fence and the fenced content are free
of double quotes, the text between the first two fence delimiters is exactly
the fenced content. -/
theorem betweenFirstFence_concat (a m b : Str) (ha : quoteFree a = true)
    (hm : quoteFree m = true) :
    betweenFirstFence (a ++ tripleQuote ++ m ++ tripleQuote ++ b) = some m := by
  unfold betweenFirstFence
  have hassoc : a ++ tripleQuote ++ m ++ tripleQuote ++ b
      = a ++ (tripleQuote ++ (m ++ (tripleQuote ++ b))) := by
    simp [List.append_assoc]
  rw [hassoc]
  rw [findSplit_tq_append a _ ha]
  rw [findSplit_append_self tripleQuote _ (by decide)]
  simp only [Option.map_some']
  rw [findSplit_tq_append m _ hm]
  rw [findSplit_append_self tripleQuote b (by decide)]
  simp

theorem quoteFree_addInstr_part (ci : Str) (h : quoteFree ci = true) :
    quoteFree (PromptEnhancer.optPart (some ci) addInstr) = true := by
  unfold PromptEnhancer.optPart
  dsimp only
  split_ifs
  · rfl
  · unfold addInstr
    rw [quoteFree_append]
    have hlit : quoteFree (cl "ADDITIONAL INSTRUCTIONS: ") = true := by decide
    rw [hlit, h]
    rfl

/-- Claim C9 (amended): the builder performs no escaping or re-fencing — it
interpolates `customInstructions` verbatim.  Provided the custom
instructions contain no double-quote character (hence no triple-quote
delimiter), the content between the first two fence delimiters of the built
prompt is exactly the original text framed by the template newlines. -/
theorem c9_fence_intact_for_quote_free_instructions (ci : Str)
    (hci : quoteFree ci = true) :
    betweenFirstFence (PromptEnhancer.buildEnhancedPrompt rawC9
        ⟨cl "general", cl "professional", none, some ci⟩)
      = some (cl "\n" ++ rawC9 ++ cl "\n") := by
  have hsplit : PromptEnhancer.buildEnhancedPrompt rawC9
        ⟨cl "general", cl "professional", none, some ci⟩
      = aC9 ci ++ tripleQuote ++ midC9 ++ tripleQuote ++ tailC9 := by
    unfold PromptEnhancer.buildEnhancedPrompt aC9
    dsimp only
    simp only [List.append_assoc]
    rfl
  rw [hsplit]
  have ha : quoteFree (aC9 ci) = true := by
    unfold aC9
    rw [quoteFree_append, quoteFree_append]
    rw [quoteFree_addInstr_part ci hci]
    have h1 : quoteFree preC9 = true := by decide
    have h2 : quoteFree (cl "\n\nORIGINAL TEXT:\n") = true := by decide
    rw [h1, h2]
    rfl
  have hm : quoteFree midC9 = true := by decide
  exact betweenFirstFence_concat (aC9 ci) midC9 tailC9 ha hm

/-- Witness for C9: the amended theorem at a concrete quote-free custom
instruction. -/
theorem c9_fence_intact_witness :
    quoteFree (cl "keep it concise") = true
    ∧ betweenFirstFence (PromptEnhancer.buildEnhancedPrompt rawC9
        ⟨cl "general", cl "professional", none, some (cl "keep it concise")⟩)
      = some (cl "\n" ++ rawC9 ++ cl "\n") :=
  ⟨by decide, c9_fence_intact_for_quote_free_instructions (cl "keep it concise") (by decide)⟩

/-- Claim C9 (counterexample): a custom instruction containing the
triple-quote delimiter escapes the instruction/content boundary — the first
fence of the built prompt then contains text from the custom instructions,
not the original text. -/
theorem c9_counterexample_instructions_escape_fence :
    betweenFirstFence (PromptEnhancer.buildEnhancedPrompt rawC9
        ⟨cl "general", cl "professional", none, some ciBadC9⟩)
      = some (cl "y")
    ∧ cl "y" ≠ cl "\n" ++ rawC9 ++ cl "\n" := by decide
